import Mathlib

/-!
Verification of the String Analyzer service (Express + better-sqlite3).

The repository contains two variants of the same application:
`src/index.js` (embedded below in namespace `IndexJs`) and a second source
file with unknown name, `src/unnamed/part_000` (namespace `Part000`).
The two variants share the property analyzer (`computeProperties`), the
route registration order, and the POST handler; they differ in the
`contains_character` clause of `applyFilters` and in the pattern list of
the natural-language interpreter.

Modelling conventions:
 - a JavaScript string is a list of UTF-16 code units (`JSString`);
 - `String.prototype.toLowerCase` is modelled on the ASCII range
   (code units 65..90 map to 97..122, the inputs relevant here);
 - a JavaScript number that may be NaN is `Option Int`, `none` standing
   for NaN: every `<`, `>` comparison against NaN is false and `!==`
   against NaN is true, exactly as in JS;
 - SHA-256 is kept abstract: definitions that need it take an arbitrary
   `hash : JSString → JSString` parameter.
-/

/-- A JavaScript string: its UTF-16 code units. -/
abbrev JSString := List Nat

/-- Code units of an ASCII Lean string literal (used to write the pattern
and example strings of the source as readable literals). -/
def jstr (s : String) : JSString := s.data.map Char.toNat

/-- `toLowerCase` on one code unit, modelled on the ASCII range: the
source's queries and patterns are ASCII. -/
def jsToLowerUnit (c : Nat) : Nat :=
  if 65 ≤ c ∧ c ≤ 90 then c + 32 else c

/-- `s.toLowerCase()`. -/
def jsToLower (s : JSString) : JSString := s.map jsToLowerUnit

/-- `s.includes(needle)`: `needle` occurs contiguously in `s`. -/
def jsIncludes (s needle : JSString) : Bool :=
  (List.range (s.length + 1)).any fun i =>
    (s.drop i).take needle.length == needle

/-- JavaScript whitespace as used by `trim` and `\s` (ASCII part). -/
def isWS (c : Nat) : Bool :=
  c == 32 || c == 9 || c == 10 || c == 13 || c == 11 || c == 12

/-- `s.trim()`. -/
def jsTrim (s : JSString) : JSString :=
  ((s.dropWhile isWS).reverse.dropWhile isWS).reverse

/-- Helper for `countWords`: scans left to right; `inWord` records
whether the previous character was part of a word, so each maximal
non-whitespace run is counted once, at its first character. -/
def countWordsAux : JSString → Bool → Nat
  | [], _ => 0
  | c :: rest, inWord =>
    if isWS c then countWordsAux rest false
    else (if inWord then 0 else 1) + countWordsAux rest true

/-- Number of maximal runs of non-whitespace characters: the length of
`t.split(/\s+/)` for a trimmed non-empty `t`. -/
def countWords (s : JSString) : Nat := countWordsAux s false

/-- An ASCII decimal digit. -/
def isDigitU (c : Nat) : Bool := 48 ≤ c && c ≤ 57

/-- A `\w` word character: `[A-Za-z0-9_]`. -/
def isWordChar (c : Nat) : Bool :=
  (97 ≤ c && c ≤ 122) || (65 ≤ c && c ≤ 90) || isDigitU c || c == 95

/-- Value of a digit string (the capture of `(\d+)`), as `parseInt` reads it. -/
def digitsToNat (ds : JSString) : Nat :=
  ds.foldl (fun acc d => acc * 10 + (d - 48)) 0

/-- Model of `s.match(/<pat> (\d+)/)` where `pat` ends in the literal
space: finds the leftmost occurrence of `pat` followed by at least one
digit and returns the value of the maximal digit run after it. -/
def matchNumberAfter (pat : JSString) : JSString → Option Nat
  | [] => none
  | c :: rest =>
    let ds := ((c :: rest).drop pat.length).takeWhile isDigitU
    if (c :: rest).take pat.length == pat && ds ≠ [] then
      some (digitsToNat ds)
    else matchNumberAfter pat rest

/-- Model of `s.match(/<pat>(\w)/)`: finds the leftmost occurrence of
`pat` followed by a word character and returns that character. -/
def matchCharAfter (pat : JSString) : JSString → Option Nat
  | [] => none
  | c :: rest =>
    match ((c :: rest).drop pat.length).head? with
    | some d =>
      if (c :: rest).take pat.length == pat && isWordChar d then some d
      else matchCharAfter pat rest
    | none => matchCharAfter pat rest

/-- The code points a JS string iterator yields (`for...of`, spread):
surrogate pairs combine into one code point, everything else — including
a lone surrogate — is yielded as is. -/
def codePoints : JSString → List Nat
  | [] => []
  | [c] => [c]
  | h :: l :: rest =>
    if 0xD800 ≤ h ∧ h ≤ 0xDBFF ∧ 0xDC00 ≤ l ∧ l ≤ 0xDFFF then
      (0x10000 + (h - 0xD800) * 0x400 + (l - 0xDC00)) :: codePoints rest
    else h :: codePoints (l :: rest)

/-- One step of building `character_frequency_map`:
`map[ch] = (map[ch] || 0) + 1` on an association list in key insertion
order (the order of a JS object's keys). -/
def bump (m : List (Nat × Nat)) (c : Nat) : List (Nat × Nat) :=
  if m.any (fun p => p.1 == c) then
    m.map (fun p => if p.1 = c then (p.1, p.2 + 1) else p)
  else m ++ [(c, 1)]

/-- `character_frequency_map` of a value: occurrence counts of its code
points, built by the `for (const ch of value)` loop. -/
def charFrequencyMap (s : JSString) : List (Nat × Nat) :=
  (codePoints s).foldl bump []

/-- The derived `properties` object (`computeProperties` in both files). -/
structure PropertySet where
  length : Nat
  is_palindrome : Bool
  unique_characters : Nat
  word_count : Nat
  sha256_hash : JSString
  character_frequency_map : List (Nat × Nat)
  deriving DecidableEq, Repr

/-- `computeProperties(value)` from the source (identical in both
variants), parametrised by the SHA-256 digest function, which is kept
abstract. `value.length` counts code units; `split("")` also splits into
code units, so the palindrome test compares code units; `new
Set([...value])` and the frequency loop iterate code points. -/
def computeProperties (hash : JSString → JSString) (value : JSString) :
    PropertySet :=
  let lower := jsToLower value
  { length := value.length
    is_palindrome := lower == lower.reverse
    unique_characters := (codePoints value).dedup.length
    word_count := if jsTrim value == [] then 0 else countWords (jsTrim value)
    sha256_hash := hash value
    character_frequency_map := charFrequencyMap value }

/-- A row of the `strings` table. `properties` is stored as JSON text in
the database and parsed back on every read; the embedding keeps it
structured, since `JSON.parse(JSON.stringify(props))` is the identity on
these records. -/
structure StringRecord where
  id : JSString
  value : JSString
  properties : PropertySet
  created_at : JSString
  deriving DecidableEq, Repr

/-- The `strings` table. -/
abbrev Store := List StringRecord

/-- JS `a < b` where `b` is a number that may be NaN (`none`):
a comparison against NaN is false. -/
def jsLt (a : Int) : Option Int → Bool
  | some b => a < b
  | none => false

/-- JS `a > b` where `b` may be NaN. -/
def jsGt (a : Int) : Option Int → Bool
  | some b => a > b
  | none => false

/-- JS `!(a !== b)` where `b` may be NaN: `x !== NaN` is always true,
so equality against NaN is false. -/
def jsEq (a : Int) : Option Int → Bool
  | some b => a == b
  | none => false

/-- JS `Number(s)` on a string, modelled on the inputs that occur here:
whitespace is trimmed, the empty string is 0, an optionally signed run
of decimal digits is its value, and anything else — e.g. `"abc"` — is
NaN (`none`). (Fractional, hex and exponent numerals are outside the
model; no claim uses them.) -/
def jsNumberOfString (s : JSString) : Option Int :=
  let t := jsTrim s
  if t.isEmpty then some 0
  else if t.all isDigitU then some (Int.ofNat (digitsToNat t))
  else if t.head? == some 45 && t.drop 1 ≠ [] && (t.drop 1).all isDigitU then
    some (-(Int.ofNat (digitsToNat (t.drop 1))))
  else if t.head? == some 43 && t.drop 1 ≠ [] && (t.drop 1).all isDigitU then
    some (Int.ofNat (digitsToNat (t.drop 1)))
  else none

/-- The dynamic `filters` object both routes build. Fields hold what the
routes actually store there: `is_palindrome` a boolean, the three
numeric fields the result of the JS `Number()` coercion the predicate
applies (`some none` = a present field whose coercion is NaN — the
source applies `Number()` inside `applyFilters`; the embedding applies
it where the field is filled, which is the same since `Number` is
pure), and `contains_character` a string. -/
structure FilterSet where
  is_palindrome : Option Bool := none
  min_length : Option (Option Int) := none
  max_length : Option (Option Int) := none
  word_count : Option (Option Int) := none
  contains_character : Option JSString := none
  deriving DecidableEq, Repr

/-- `Object.keys(filters).length === 0`: no field is present. -/
def FilterSet.isEmptyFS (f : FilterSet) : Bool :=
  f.is_palindrome.isNone && f.min_length.isNone && f.max_length.isNone &&
  f.word_count.isNone && f.contains_character.isNone

namespace IndexJs

/-- The `contains_character` clause of `applyFilters` in `src/index.js`:
`if (typeof ch !== "string" || ch.length === 0) return false;
if (!r.value.includes(ch)) return false;` — case-SENSITIVE, and an
empty needle rejects the record. (`ch` is always a string here: both
routes store a string.) -/
def containsCheck (value ch : JSString) : Bool :=
  !ch.isEmpty && jsIncludes value ch

/-- The body of `rows.filter(...)` in `applyFilters` of `src/index.js`:
true iff the record survives every early `return false`. -/
def matchesOne (r : StringRecord) (filters : FilterSet) : Bool :=
  let p := r.properties
  (match filters.is_palindrome with
   | some b => p.is_palindrome == b
   | none => true) &&
  ((match filters.min_length with
   | some m => !jsLt (Int.ofNat p.length) m
   | none => true) &&
  ((match filters.max_length with
   | some m => !jsGt (Int.ofNat p.length) m
   | none => true) &&
  ((match filters.word_count with
   | some w => jsEq (Int.ofNat p.word_count) w
   | none => true) &&
  (match filters.contains_character with
   | some ch => containsCheck r.value ch
   | none => true))))

/-- `applyFilters(rows, filters)` from `src/index.js`. -/
def applyFilters (rows : List StringRecord) (filters : FilterSet) :
    List StringRecord :=
  rows.filter (fun r => matchesOne r filters)

end IndexJs

namespace Part000

/-- The `contains_character` clause of `applyFilters` in
`src/unnamed/part_000`: `if (filters.contains_character) { if
(!r.value.toLowerCase().includes(filters.contains_character.toLowerCase()))
return false; }` — truthiness: an empty needle skips the test, a
non-empty one is matched case-insensitively. -/
def containsCheck (value ch : JSString) : Bool :=
  ch.isEmpty || jsIncludes (jsToLower value) (jsToLower ch)

/-- The body of `rows.filter(...)` in `applyFilters` of
`src/unnamed/part_000` (same logic as the index.js variant except the
`contains_character` clause). -/
def matchesOne (r : StringRecord) (filters : FilterSet) : Bool :=
  let p := r.properties
  (match filters.is_palindrome with
   | some b => p.is_palindrome == b
   | none => true) &&
  ((match filters.min_length with
   | some m => !jsLt (Int.ofNat p.length) m
   | none => true) &&
  ((match filters.max_length with
   | some m => !jsGt (Int.ofNat p.length) m
   | none => true) &&
  ((match filters.word_count with
   | some w => jsEq (Int.ofNat p.word_count) w
   | none => true) &&
  (match filters.contains_character with
   | some ch => containsCheck r.value ch
   | none => true))))

/-- `applyFilters(rows, filters)` from `src/unnamed/part_000`. -/
def applyFilters (rows : List StringRecord) (filters : FilterSet) :
    List StringRecord :=
  rows.filter (fun r => matchesOne r filters)

end Part000

/-- `s.indexOf(pat)`: index of the leftmost occurrence. -/
def indexOfJS (s pat : JSString) : Option Nat :=
  (List.range (s.length + 1)).find? fun i =>
    (s.drop i).take pat.length == pat

namespace IndexJs

/-- The natural-language parsing block of the
`GET /strings/filter-by-natural-language` handler in `src/index.js`
(lines 164-183): note it recognizes only the substring "palindromic"
(not "palindrome") and has no "shorter than" pattern; the second
`containing the letter` branch repeats the condition of the first and is
therefore unreachable, but is embedded as written. -/
def parseFilters (query : JSString) : FilterSet :=
  let lower := jsToLower query
  let f1 : FilterSet :=
    if jsIncludes lower (jstr "palindromic") then
      { is_palindrome := some true }
    else {}
  let f2 :=
    if jsIncludes lower (jstr "longer than") then
      match matchNumberAfter (jstr "longer than ") lower with
      | some n => { f1 with min_length := some (some ((n : Int) + 1)) }
      | none => f1
    else f1
  let f3 :=
    if jsIncludes lower (jstr "single word") then
      { f2 with word_count := some (some 1) }
    else f2
  let f4 :=
    if jsIncludes lower (jstr "containing the letter") then
      match matchCharAfter (jstr "containing the letter ") lower with
      | some c => { f3 with contains_character := some [c] }
      | none => f3
    else if jsIncludes lower (jstr "containing the letter") then
      match indexOfJS lower (jstr "containing the letter") with
      | some i =>
        match (lower.drop (i + 22)).take 1 with
        | c :: _ => { f3 with contains_character := some [c] }
        | [] => f3
      | none => f3
    else f3
  let f5 :=
    if jsIncludes lower (jstr "containing the first vowel") then
      { f4 with contains_character := some [97] }
    else f4
  f5

end IndexJs

namespace Part000

/-- The natural-language parsing block of the
`GET /strings/filter-by-natural-language` handler in
`src/unnamed/part_000` (lines 171-189): the six patterns of the spec's
§4.3, applied in order; "containing the first vowel" is checked after
"containing the letter X" and overwrites `contains_character`. -/
def parseFilters (query : JSString) : FilterSet :=
  let lower := jsToLower query
  let f1 : FilterSet :=
    if jsIncludes lower (jstr "palindrome") ||
       jsIncludes lower (jstr "palindromic") then
      { is_palindrome := some true }
    else {}
  let f2 :=
    match matchNumberAfter (jstr "longer than ") lower with
    | some n => { f1 with min_length := some (some ((n : Int) + 1)) }
    | none => f1
  let f3 :=
    match matchNumberAfter (jstr "shorter than ") lower with
    | some n => { f2 with max_length := some (some ((n : Int) - 1)) }
    | none => f2
  let f4 :=
    if jsIncludes lower (jstr "single word") then
      { f3 with word_count := some (some 1) }
    else f3
  let f5 :=
    match matchCharAfter (jstr "containing the letter ") lower with
    | some c => { f4 with contains_character := some [c] }
    | none => f4
  let f6 :=
    if jsIncludes lower (jstr "containing the first vowel") then
      { f5 with contains_character := some [97] }
    else f5
  f6

/-- One of the six patterns the `part_000` interpreter recognizes fires
on the query (the conditions are exactly the guards of `parseFilters`). -/
def recognizedPattern (query : JSString) : Bool :=
  let lower := jsToLower query
  jsIncludes lower (jstr "palindrome") ||
  jsIncludes lower (jstr "palindromic") ||
  (matchNumberAfter (jstr "longer than ") lower).isSome ||
  (matchNumberAfter (jstr "shorter than ") lower).isSome ||
  jsIncludes lower (jstr "single word") ||
  (matchCharAfter (jstr "containing the letter ") lower).isSome ||
  jsIncludes lower (jstr "containing the first vowel")

/-- The interpreter as the handler uses it: `none` models the 400
"Unable to parse natural language query" response
(`Object.keys(filters).length === 0`), `some f` a success with the
parsed FilterSet. -/
def interpret (query : JSString) : Option FilterSet :=
  let f := parseFilters query
  if f.isEmptyFS then none else some f

end Part000

/-- A segment of a registered route path: a literal, or `:param`
(which, in Express, matches any single non-empty path segment). -/
inductive Seg where
  | lit : JSString → Seg
  | param : Seg
  deriving DecidableEq

/-- The GET handlers, in the order `app.get` registers them
(identical in both variants of the source). -/
inductive RouteId where
  | getByValue      -- app.get("/strings/:string_value")
  | getStrings      -- app.get("/strings")
  | getFilterNL     -- app.get("/strings/filter-by-natural-language")
  | health          -- app.get("/")
  deriving DecidableEq, Repr

/-- Does one pattern segment match one path segment? -/
def segMatches : Seg → JSString → Bool
  | Seg.lit l, s => l == s
  | Seg.param, s => !s.isEmpty

/-- A route pattern matches a path iff they have the same number of
segments and each segment matches. -/
def pathMatches (pat : List Seg) (path : List JSString) : Bool :=
  pat.length == path.length &&
  (List.zip pat path).all fun q => segMatches q.1 q.2

/-- The GET route table in registration order: Express dispatches a
request to the FIRST registered route whose pattern matches its path.
`/strings/:string_value` is registered before
`/strings/filter-by-natural-language` in both source files. -/
def getRoutes : List (List Seg × RouteId) :=
  [([Seg.lit (jstr "strings"), Seg.param], RouteId.getByValue),
   ([Seg.lit (jstr "strings")], RouteId.getStrings),
   ([Seg.lit (jstr "strings"), Seg.lit (jstr "filter-by-natural-language")],
    RouteId.getFilterNL),
   ([], RouteId.health)]

/-- Express route dispatch for a GET request: first match wins. -/
def dispatchGet (path : List JSString) : Option RouteId :=
  (getRoutes.find? fun rt => pathMatches rt.1 path).map (fun rt => rt.2)

/-- `decodeURIComponent`, modelled on inputs that contain no
percent-escape sequences, where it is the identity (every input
considered in the claims is escape-free). -/
def decodeURIComp (s : JSString) : JSString := s

/-- Status code of the `GET /strings/:string_value` handler (identical
in both variants): 400 on an empty param, 404 when no row has the
SHA-256 id of the decoded value, 200 otherwise. -/
def getByValueStatus (hash : JSString → JSString) (store : Store)
    (raw : JSString) : Nat :=
  if raw.isEmpty then 400
  else
    let value := decodeURIComp raw
    if store.any (fun r => r.id == hash value) then 200 else 404

/-- Status code of the `GET /strings/filter-by-natural-language`
handler of `src/unnamed/part_000`: 400 when `query` is missing or no
pattern fired, 200 otherwise. -/
def filterNLStatus (q : Option JSString) : Nat :=
  match q with
  | none => 400
  | some query =>
    if (Part000.parseFilters query).isEmptyFS then 400 else 200

/-- Status code of a GET request: Express picks the first matching
route, then that route's handler runs. `q` is the `query` query-string
parameter (only the natural-language handler reads it). -/
def handleGet (hash : JSString → JSString) (store : Store)
    (path : List JSString) (q : Option JSString) : Nat :=
  match dispatchGet path with
  | some RouteId.getByValue => getByValueStatus hash store (path.getD 1 [])
  | some RouteId.getFilterNL => filterNLStatus q
  | some RouteId.getStrings => 200
  | some RouteId.health => 200
  | none => 404

/-- The `value` field of a `POST /strings` body: absent, a string, or
present with any non-string JSON type (the handler only distinguishes
these three cases). -/
inductive BodyValue where
  | str : JSString → BodyValue
  | nonString : BodyValue
  deriving DecidableEq

/-- The `POST /strings` handler (identical in both variants): status
and resulting store. 400 when `value` is missing, 422 when not a
string, 409 — leaving the store untouched — when a row with the same
content hash exists, else 201 and the new row is inserted. -/
def postStrings (hash : JSString → JSString) (store : Store)
    (now : JSString) (value : Option BodyValue) : Nat × Store :=
  match value with
  | none => (400, store)
  | some BodyValue.nonString => (422, store)
  | some (BodyValue.str v) =>
    let props := computeProperties hash v
    let id := props.sha256_hash
    if store.any (fun r => r.id == id) then (409, store)
    else (201, store ++ [{ id := id, value := v, properties := props,
                           created_at := now }])

/-- `s.includes("")` is true: the empty needle occurs everywhere. -/
theorem jsIncludes_nil (s : JSString) : jsIncludes s [] = true := by
  simp [jsIncludes]
  exact ⟨0, Nat.succ_pos _⟩

/-- The `is_palindrome` field of the part_000 interpreter's result is
governed solely by the palindrome patterns. -/
theorem part000_parse_is_palindrome (q : JSString) :
    (Part000.parseFilters q).is_palindrome =
      (if jsIncludes (jsToLower q) (jstr "palindrome") ||
          jsIncludes (jsToLower q) (jstr "palindromic") then some true
       else none) := by
  unfold Part000.parseFilters
  dsimp only
  (repeat' split) <;> simp_all

/-- The `min_length` field of the part_000 interpreter's result is
governed solely by the "longer than N" pattern. -/
theorem part000_parse_min_length (q : JSString) :
    (Part000.parseFilters q).min_length =
      (matchNumberAfter (jstr "longer than ") (jsToLower q)).map
        (fun n => some ((n : Int) + 1)) := by
  unfold Part000.parseFilters
  dsimp only
  (repeat' split) <;> simp_all

/-- The `max_length` field of the part_000 interpreter's result is
governed solely by the "shorter than N" pattern. -/
theorem part000_parse_max_length (q : JSString) :
    (Part000.parseFilters q).max_length =
      (matchNumberAfter (jstr "shorter than ") (jsToLower q)).map
        (fun n => some ((n : Int) - 1)) := by
  unfold Part000.parseFilters
  dsimp only
  (repeat' split) <;> simp_all

/-- The `word_count` field of the part_000 interpreter's result is
governed solely by the "single word" pattern. -/
theorem part000_parse_word_count (q : JSString) :
    (Part000.parseFilters q).word_count =
      (if jsIncludes (jsToLower q) (jstr "single word") then some (some 1)
       else none) := by
  unfold Part000.parseFilters
  dsimp only
  (repeat' split) <;> simp_all

/-- The `contains_character` field of the part_000 interpreter's result:
"containing the first vowel" (checked last) wins over
"containing the letter X". -/
theorem part000_parse_contains (q : JSString) :
    (Part000.parseFilters q).contains_character =
      (if jsIncludes (jsToLower q) (jstr "containing the first vowel") then
        some [97]
       else
        (matchCharAfter (jstr "containing the letter ") (jsToLower q)).map
          (fun c => [c])) := by
  unfold Part000.parseFilters
  dsimp only
  (repeat' split) <;> simp_all

/-- The part_000 interpreter produces the empty FilterSet exactly when
none of its six patterns fires. -/
theorem part000_parse_empty_iff (q : JSString) :
    (Part000.parseFilters q).isEmptyFS = !Part000.recognizedPattern q := by
  unfold FilterSet.isEmptyFS Part000.recognizedPattern
  rw [part000_parse_is_palindrome, part000_parse_min_length,
      part000_parse_max_length, part000_parse_word_count,
      part000_parse_contains]
  dsimp only
  cases h1 : jsIncludes (jsToLower q) (jstr "palindrome") <;>
  cases h2 : jsIncludes (jsToLower q) (jstr "palindromic") <;>
  cases h3 : matchNumberAfter (jstr "longer than ") (jsToLower q) <;>
  cases h4 : matchNumberAfter (jstr "shorter than ") (jsToLower q) <;>
  cases h5 : jsIncludes (jsToLower q) (jstr "single word") <;>
  cases h6 : matchCharAfter (jstr "containing the letter ") (jsToLower q) <;>
  cases h7 : jsIncludes (jsToLower q) (jstr "containing the first vowel") <;>
  simp_all

/-- C3 (amended to the part_000 variant): a query whose lowercased form
contains "palindrome" or "palindromic" yields a FilterSet with
`is_palindrome = true`. (The index.js variant checks only
"palindromic"; see the counterexample.) -/
theorem nl_palindrome_sets_is_palindrome (q : JSString)
    (h : (jsIncludes (jsToLower q) (jstr "palindrome") ||
          jsIncludes (jsToLower q) (jstr "palindromic")) = true) :
    (Part000.parseFilters q).is_palindrome = some true := by
  rw [part000_parse_is_palindrome, h]
  rfl

/-- Witness for the C3 theorem at the query "palindromic strings". -/
theorem nl_palindrome_sets_is_palindrome_witness :
    (Part000.parseFilters (jstr "palindromic strings")).is_palindrome =
      some true :=
  nl_palindrome_sets_is_palindrome (jstr "palindromic strings") (by decide)

/-- C3 counterexample: the query "palindrome strings" contains the
substring "palindrome", yet the index.js interpreter leaves
`is_palindrome` unset (it looks only for "palindromic"). -/
theorem nl_palindrome_indexjs_cex :
    jsIncludes (jsToLower (jstr "palindrome strings")) (jstr "palindrome") =
      true
    ∧ (IndexJs.parseFilters (jstr "palindrome strings")).is_palindrome =
        none := by
  decide

/-- C4 (amended to the part_000 variant): a query whose lowercased form
matches "shorter than N" (N the digits of the leftmost such occurrence)
yields a FilterSet with `max_length = N - 1`. (The index.js variant has
no "shorter than" pattern; see the counterexample.) -/
theorem nl_shorter_than_sets_max_length (q : JSString) (n : Nat)
    (h : matchNumberAfter (jstr "shorter than ") (jsToLower q) = some n) :
    (Part000.parseFilters q).max_length = some (some ((n : Int) - 1)) := by
  rw [part000_parse_max_length, h]
  rfl

/-- Witness for the C4 theorem at the query "strings shorter than 5". -/
theorem nl_shorter_than_sets_max_length_witness :
    (Part000.parseFilters (jstr "strings shorter than 5")).max_length =
      some (some 4) :=
  nl_shorter_than_sets_max_length (jstr "strings shorter than 5") 5
    (by decide)

/-- C4 counterexample: "strings shorter than 5" matches the
"shorter than N" pattern with N = 5, yet the index.js interpreter
leaves `max_length` unset (it has no such pattern at all). -/
theorem nl_shorter_than_indexjs_cex :
    matchNumberAfter (jstr "shorter than ")
        (jsToLower (jstr "strings shorter than 5")) = some 5
    ∧ (IndexJs.parseFilters (jstr "strings shorter than 5")).max_length =
        none := by
  decide

/-- C7: the part_000 interpreter fails (the handler answers 400
"Unable to parse natural language query") exactly when none of its
recognized patterns fires, and a successful interpretation never
carries the empty FilterSet. -/
theorem interpret_fails_iff_no_pattern (q : JSString) :
    (Part000.interpret q = none ↔ Part000.recognizedPattern q = false)
    ∧ ∀ f, Part000.interpret q = some f → f.isEmptyFS = false := by
  have he := part000_parse_empty_iff q
  cases hr : Part000.recognizedPattern q <;> rw [hr] at he <;>
    simp only [Bool.not_false, Bool.not_true] at he
  · constructor
    · simp [Part000.interpret, he]
    · intro f hf
      simp [Part000.interpret, he] at hf
  · constructor
    · simp [Part000.interpret, he]
    · intro f hf
      simp [Part000.interpret, he] at hf
      rw [← hf]
      exact he

/-- Witness for the C7 theorem: "xyz" fires no pattern, so the
interpreter fails on it. -/
theorem interpret_fails_iff_no_pattern_witness :
    Part000.interpret (jstr "xyz") = none :=
  (interpret_fails_iff_no_pattern (jstr "xyz")).1.mpr (by decide)

/-- The part_000 `contains_character` clause equals the case-insensitive
substring test outright: the truthiness guard only skips the test for an
empty needle, which every string contains anyway. -/
theorem part000_containsCheck_eq (value ch : JSString) :
    Part000.containsCheck value ch =
      jsIncludes (jsToLower value) (jsToLower ch) := by
  unfold Part000.containsCheck
  cases hch : ch with
  | nil => simp [jsIncludes_nil, jsToLower]
  | cons c cs => simp [List.isEmpty]

/-- C2 (amended): with `contains_character` present, the part_000
variant's predicate is the other conjuncts AND the case-insensitive
substring test (lowercasing both sides), while the index.js variant's
predicate is the other conjuncts AND a case-SENSITIVE test that also
rejects the empty needle. -/
theorem contains_character_conjunct_variants (r : StringRecord)
    (f : FilterSet) (ch : JSString)
    (h : f.contains_character = some ch) :
    Part000.matchesOne r f =
      (Part000.matchesOne r { f with contains_character := none } &&
       jsIncludes (jsToLower r.value) (jsToLower ch))
    ∧ IndexJs.matchesOne r f =
      (IndexJs.matchesOne r { f with contains_character := none } &&
       (!ch.isEmpty && jsIncludes r.value ch)) := by
  constructor
  · simp only [Part000.matchesOne, h, part000_containsCheck_eq]
    cases jsIncludes (jsToLower r.value) (jsToLower ch) <;> simp
  · simp only [IndexJs.matchesOne, h, IndexJs.containsCheck]
    cases ch.isEmpty <;> cases jsIncludes r.value ch <;> simp

/-- A record whose raw value is "A". -/
def demoA : StringRecord :=
  { id := jstr "A", value := jstr "A",
    properties := computeProperties (fun s => s) (jstr "A"),
    created_at := [] }

/-- Witness for the C2 theorem at a concrete record and FilterSet. -/
theorem contains_character_conjunct_witness :
    Part000.matchesOne demoA { contains_character := some (jstr "a") } =
      (Part000.matchesOne demoA
         { ({ contains_character := some (jstr "a") } : FilterSet) with
            contains_character := none } &&
       jsIncludes (jsToLower demoA.value) (jsToLower (jstr "a"))) :=
  (contains_character_conjunct_variants demoA
    { contains_character := some (jstr "a") } (jstr "a") rfl).1

/-- C2 counterexample: the stored value "A" contains the needle "a"
case-insensitively, yet the index.js variant's predicate rejects the
record — its substring test is case-sensitive. -/
theorem contains_character_case_sensitivity_cex :
    jsIncludes (jsToLower demoA.value) (jsToLower (jstr "a")) = true
    ∧ IndexJs.matchesOne demoA { contains_character := some (jstr "a") } =
        false := by
  decide

/-- A record whose raw value is "abc" (length 3, one word). -/
def demoRecord : StringRecord :=
  { id := jstr "abc", value := jstr "abc",
    properties := computeProperties (fun s => s) (jstr "abc"),
    created_at := [] }

/-- C5 counterexample: `min_length=abc` coerces to NaN, and
`p.length < NaN` is false, so the record is NOT excluded — both the
predicate and the full filtered listing keep it, against the claim that
a malformed numeric filter is non-matching. -/
theorem malformed_min_length_cex :
    jsNumberOfString (jstr "abc") = none
    ∧ Part000.matchesOne demoRecord
        { min_length := some (jsNumberOfString (jstr "abc")) } = true
    ∧ Part000.applyFilters [demoRecord]
        { min_length := some (jsNumberOfString (jstr "abc")) } =
        [demoRecord]
    ∧ IndexJs.matchesOne demoRecord
        { min_length := some (jsNumberOfString (jstr "abc")) } = true := by
  decide

/-- C5 (amended): in both variants a present `word_count` filter that
coerces to NaN excludes every record (NaN fails `!==`), while a present
`min_length` or `max_length` filter that coerces to NaN excludes
nothing — the NaN comparison is false, so the clause never fires and
the filter behaves as if absent. -/
theorem malformed_numeric_filter_behavior (r : StringRecord)
    (f : FilterSet) :
    (f.word_count = some none →
      Part000.matchesOne r f = false ∧ IndexJs.matchesOne r f = false)
    ∧ Part000.matchesOne r { f with min_length := some none } =
        Part000.matchesOne r { f with min_length := none }
    ∧ Part000.matchesOne r { f with max_length := some none } =
        Part000.matchesOne r { f with max_length := none }
    ∧ IndexJs.matchesOne r { f with min_length := some none } =
        IndexJs.matchesOne r { f with min_length := none }
    ∧ IndexJs.matchesOne r { f with max_length := some none } =
        IndexJs.matchesOne r { f with max_length := none } := by
  refine ⟨fun h => ?_, ?_, ?_, ?_, ?_⟩
  · constructor <;> simp [Part000.matchesOne, IndexJs.matchesOne, h, jsEq]
  · simp [Part000.matchesOne, jsLt]
  · simp [Part000.matchesOne, jsGt]
  · simp [IndexJs.matchesOne, jsLt]
  · simp [IndexJs.matchesOne, jsGt]

/-- Witness for the C5 theorem: a concrete record against a FilterSet
whose `word_count` is present and NaN. -/
theorem malformed_numeric_filter_behavior_witness :
    Part000.matchesOne demoRecord { word_count := some none } = false ∧
    IndexJs.matchesOne demoRecord { word_count := some none } = false :=
  (malformed_numeric_filter_behavior demoRecord
    { word_count := some none }).1 rfl

/-- C6: `is_palindrome` holds exactly when the lowercased value equals
its own reverse (code unit by code unit, as `split("")` splits). -/
theorem is_palindrome_iff_lower_reverse (hash : JSString → JSString)
    (v : JSString) :
    (computeProperties hash v).is_palindrome = true ↔
      jsToLower v = (jsToLower v).reverse := by
  simp [computeProperties]

/-- C8: a `POST /strings` of a value already stored answers 409 and
leaves the store exactly as it was. `hwf` states the store invariant
(each row is keyed by the hash of its value) the insert path itself
maintains. -/
theorem duplicate_post_conflict (hash : JSString → JSString)
    (store : Store) (now v : JSString)
    (hwf : ∀ r ∈ store, r.id = hash r.value)
    (hmem : ∃ r ∈ store, r.value = v) :
    postStrings hash store now (some (BodyValue.str v)) = (409, store) := by
  obtain ⟨r, hr, hv⟩ := hmem
  have hany : store.any (fun s => s.id == hash v) = true :=
    List.any_eq_true.mpr ⟨r, hr, by rw [hwf r hr, hv]; exact beq_self_eq_true _⟩
  simp only [postStrings, computeProperties]
  rw [if_pos hany]

/-- Witness for the C8 theorem: re-posting "abc" into the store that
already holds it conflicts and leaves the store unchanged. -/
theorem duplicate_post_conflict_witness :
    postStrings (fun s => s) [demoRecord] [] (some (BodyValue.str (jstr "abc")))
      = (409, [demoRecord]) :=
  duplicate_post_conflict (fun s => s) [demoRecord] [] (jstr "abc")
    (by intro r hr; rw [List.mem_singleton] at hr; subst hr; rfl)
    ⟨demoRecord, by simp, rfl⟩

/-- C9: the empty FilterSet matches every record in both variants —
filtering is the identity on any list of rows. -/
theorem empty_filterset_identity (rows : List StringRecord) :
    IndexJs.applyFilters rows {} = rows
    ∧ Part000.applyFilters rows {} = rows := by
  constructor
  · unfold IndexJs.applyFilters
    rw [show (fun r => IndexJs.matchesOne r {}) = (fun _ => true) from
          funext (fun r => rfl)]
    exact List.filter_true rows
  · unfold Part000.applyFilters
    rw [show (fun r => Part000.matchesOne r {}) = (fun _ => true) from
          funext (fun r => rfl)]
    exact List.filter_true rows

/-- C1: Express dispatches `GET /strings/filter-by-natural-language` to
the FIRST matching registered route, which is `GET /strings/:string_value`
(registered earlier; its `:string_value` pattern matches the literal
segment "filter-by-natural-language"). With a store that does not happen
to contain the string "filter-by-natural-language", the service answers
404 — even though the query "palindromic strings" is parsable and the
natural-language handler (which never runs) would answer 200. -/
theorem route_shadowing_filter_nl :
    dispatchGet [jstr "strings", jstr "filter-by-natural-language"] =
      some RouteId.getByValue
    ∧ handleGet (fun s => s) []
        [jstr "strings", jstr "filter-by-natural-language"]
        (some (jstr "palindromic strings")) = 404
    ∧ filterNLStatus (some (jstr "palindromic strings")) = 200 := by
  decide

theorem bump_keys (m : List (Nat × Nat)) (c : Nat) :
    (bump m c).map Prod.fst =
      if c ∈ m.map Prod.fst then m.map Prod.fst
      else m.map Prod.fst ++ [c] := by
  unfold bump
  by_cases hc : c ∈ m.map Prod.fst
  · have ha : m.any (fun p => p.1 == c) = true := by
      obtain ⟨p, hp, he⟩ := List.mem_map.mp hc
      exact List.any_eq_true.mpr ⟨p, hp, by rw [he]; exact beq_self_eq_true c⟩
    rw [if_pos ha, if_pos hc, List.map_map]
    apply List.map_congr_left
    intro p hp
    by_cases h : p.1 = c <;> simp [h]
  · have ha : m.any (fun p => p.1 == c) = false := by
      rw [List.any_eq_false]
      intro p hp he
      rw [beq_iff_eq] at he
      exact hc (List.mem_map.mpr ⟨p, hp, he⟩)
    rw [if_neg (by simp [ha]), if_neg hc, List.map_append]
    rfl

theorem codePoints_length_le (s : JSString) :
    (codePoints s).length ≤ s.length := by
  induction s using codePoints.induct with
  | case1 => simp [codePoints]
  | case2 c => simp [codePoints]
  | case3 h l rest hsur ih => simp [codePoints, hsur]; omega
  | case4 h l rest hsur ih => simp [codePoints, hsur] at ih ⊢; omega

theorem mapBumpAt_sum (c : Nat) (m : List (Nat × Nat))
    (hnd : (m.map Prod.fst).Nodup) (hmem : c ∈ m.map Prod.fst) :
    ((m.map fun p => if p.1 = c then (p.1, p.2 + 1) else p).map
        Prod.snd).sum
      = (m.map Prod.snd).sum + 1 := by
  induction m with
  | nil => simp at hmem
  | cons p rest ih =>
    simp only [List.map_cons, List.nodup_cons] at hnd
    obtain ⟨hpn, hnd'⟩ := hnd
    by_cases hp : p.1 = c
    · have hrest : ∀ q ∈ rest, ¬ q.1 = c := by
        intro q hq hqc
        exact hpn (by rw [hp, ← hqc]; exact List.mem_map.mpr ⟨q, hq, rfl⟩)
      have hmap :
          rest.map (fun q => if q.1 = c then (q.1, q.2 + 1) else q) = rest := by
        conv_rhs => rw [← List.map_id rest]
        apply List.map_congr_left
        intro q hq
        simp [hrest q hq]
      simp [hp, hmap]
      omega
    · have hmem' : c ∈ rest.map Prod.fst := by
        rw [List.map_cons, List.mem_cons] at hmem
        rcases hmem with h | h
        · exact absurd h.symm hp
        · exact h
      simp only [List.map_cons, List.sum_cons, if_neg hp]
      rw [ih hnd' hmem']
      omega

theorem bump_sum (m : List (Nat × Nat)) (c : Nat)
    (hnd : (m.map Prod.fst).Nodup) :
    ((bump m c).map Prod.snd).sum = (m.map Prod.snd).sum + 1 := by
  unfold bump
  by_cases hc : c ∈ m.map Prod.fst
  · have ha : m.any (fun p => p.1 == c) = true := by
      obtain ⟨p, hp, he⟩ := List.mem_map.mp hc
      exact List.any_eq_true.mpr ⟨p, hp, by rw [he]; exact beq_self_eq_true c⟩
    rw [if_pos ha]
    exact mapBumpAt_sum c m hnd hc
  · have ha : m.any (fun p => p.1 == c) = false := by
      rw [List.any_eq_false]
      intro p hp he
      rw [beq_iff_eq] at he
      exact hc (List.mem_map.mpr ⟨p, hp, he⟩)
    rw [if_neg (by simp [ha])]
    simp

theorem bump_keys_nodup (m : List (Nat × Nat)) (c : Nat)
    (hnd : (m.map Prod.fst).Nodup) : ((bump m c).map Prod.fst).Nodup := by
  rw [bump_keys]
  split
  · exact hnd
  · next hc => simp [List.nodup_append, hnd, hc]

theorem bump_keys_mem (m : List (Nat × Nat)) (c x : Nat) :
    x ∈ (bump m c).map Prod.fst ↔ x ∈ m.map Prod.fst ∨ x = c := by
  rw [bump_keys]
  split
  · next h =>
    constructor
    · exact Or.inl
    · rintro (hx | rfl)
      · exact hx
      · exact h
  · simp [List.mem_append]

theorem foldl_bump_nodup (l : List Nat) :
    ∀ m : List (Nat × Nat), (m.map Prod.fst).Nodup →
      ((l.foldl bump m).map Prod.fst).Nodup := by
  induction l with
  | nil => intro m h; exact h
  | cons c l ih => intro m h; exact ih _ (bump_keys_nodup m c h)

theorem foldl_bump_sum (l : List Nat) :
    ∀ m : List (Nat × Nat), (m.map Prod.fst).Nodup →
      ((l.foldl bump m).map Prod.snd).sum =
        (m.map Prod.snd).sum + l.length := by
  induction l with
  | nil => intro m h; simp
  | cons c l ih =>
    intro m h
    simp only [List.foldl_cons, List.length_cons]
    rw [ih _ (bump_keys_nodup m c h), bump_sum m c h]
    omega

theorem foldl_bump_mem (l : List Nat) :
    ∀ (m : List (Nat × Nat)) (x : Nat),
      x ∈ (l.foldl bump m).map Prod.fst ↔ x ∈ m.map Prod.fst ∨ x ∈ l := by
  induction l with
  | nil => intro m x; simp
  | cons c l ih =>
    intro m x
    simp only [List.foldl_cons, List.mem_cons]
    rw [ih, bump_keys_mem]
    tauto

theorem charFreq_keys_nodup (s : JSString) :
    ((charFrequencyMap s).map Prod.fst).Nodup :=
  foldl_bump_nodup (codePoints s) [] (by simp)

theorem charFreq_sum (s : JSString) :
    ((charFrequencyMap s).map Prod.snd).sum = (codePoints s).length := by
  have := foldl_bump_sum (codePoints s) [] (by simp)
  simpa [charFrequencyMap] using this

theorem charFreq_mem (s : JSString) (x : Nat) :
    x ∈ (charFrequencyMap s).map Prod.fst ↔ x ∈ codePoints s := by
  have := foldl_bump_mem (codePoints s) [] x
  simpa [charFrequencyMap] using this

theorem charFreq_keys_length (s : JSString) :
    ((charFrequencyMap s).map Prod.fst).dedup.length =
      (codePoints s).dedup.length := by
  have h1 := charFreq_keys_nodup s
  rw [h1.dedup]
  have h2 : ((charFrequencyMap s).map Prod.fst).toFinset =
      ((codePoints s).dedup).toFinset := by
    ext x
    rw [List.mem_toFinset, List.mem_toFinset, List.mem_dedup, charFreq_mem]
  calc ((charFrequencyMap s).map Prod.fst).length
      = ((charFrequencyMap s).map Prod.fst).toFinset.card :=
        (List.toFinset_card_of_nodup h1).symm
    _ = ((codePoints s).dedup).toFinset.card := by rw [h2]
    _ = ((codePoints s).dedup).length :=
        List.toFinset_card_of_nodup ((codePoints s).nodup_dedup)

theorem frequency_map_invariants (hash : JSString → JSString)
    (v : JSString) :
    (computeProperties hash v).unique_characters =
      ((computeProperties hash v).character_frequency_map.map
        Prod.fst).dedup.length
    ∧ ((computeProperties hash v).character_frequency_map.map
        Prod.snd).sum = (codePoints v).length
    ∧ (codePoints v).length ≤ (computeProperties hash v).length := by
  refine ⟨?_, ?_, ?_⟩
  · simp only [computeProperties]
    exact (charFreq_keys_length v).symm
  · simp only [computeProperties]
    exact charFreq_sum v
  · simp only [computeProperties]
    exact codePoints_length_le v
